import Mathlib

/-!
# Verification of the OPNet `PackageRegistry` contract

A shallow embedding of `PackageRegistry.ts` (AssemblyScript smart contract) and
proofs about its operations.

Modelling conventions:
* Machine integers (`u8`, `u64`, `u256`) are modelled as `Nat`; overflow is made
  explicit where the source can overflow (`SafeMath.add`, `SafeMath.add64` revert
  on overflow; plain `u64` addition in `isWithinMutabilityWindow` wraps mod `2^64`).
* Storage keys in the source are SHA-256 digests of canonical name strings
  (`scopeKey = H(scope)`, `packageKey = H(pkg)`, `versionKey = H(pkg ++ ":" ++ ver)`).
  Collisions are treated as cryptographically negligible by the contract, so the
  hash is modelled as the injection taking a canonical string to itself: the maps
  are keyed directly by the canonical strings.  Likewise the stored SHA-256
  digests of the signature and dependency blobs are modelled by the (injective)
  identity on the byte lists.
* Addresses are modelled as `Nat` (the `u256` value of the 32-byte identity);
  `Address.zero` is `0`.
* Reverts (`throw new Revert(msg)`) are modelled as `Except.error msg`; the
  revert messages are taken verbatim from the source.
-/

namespace PackageRegistry

/-! ## Constants (`src/registry/constants.ts`) -/

def MLDSA44_SIG_SIZE : Nat := 2420
def MLDSA65_SIG_SIZE : Nat := 3309
def MLDSA87_SIG_SIZE : Nat := 4627
def MAX_SCOPE_LENGTH : Nat := 32
def MAX_NAME_LENGTH : Nat := 64
def MAX_VERSION_LENGTH : Nat := 32
def MAX_CID_LENGTH : Nat := 128
def MAX_OPNET_RANGE_LENGTH : Nat := 64
def MAX_REASON_LENGTH : Nat := 256
def MUTABILITY_WINDOW : Nat := 259200
def DEFAULT_PACKAGE_PRICE_SATS : Nat := 10000
def DEFAULT_SCOPE_PRICE_SATS : Nat := 5000000
def RESERVED_SCOPE : String := "opnet"

/-! ## Character classes (char-code tests used throughout the source) -/

/-- Source `c >= 97 && c <= 122` : lowercase `a`-`z`. -/
def isLowerCode (c : Char) : Bool := 97 ≤ c.toNat && c.toNat ≤ 122

/-- Source `c >= 48 && c <= 57` : digit `0`-`9`. -/
def isDigitCode (c : Char) : Bool := 48 ≤ c.toNat && c.toNat ≤ 57

/-- Source `c == 45` : hyphen `-`. -/
def isHyphenCode (c : Char) : Bool := c.toNat == 45

/-- Source `c == 46` : dot `.`. -/
def isDotCode (c : Char) : Bool := c.toNat == 46

/-! ## Validation Engine (pure validators from `PackageRegistry.ts`) -/

/-- Loop body shared by `validateScopeName` and `validateUnscopedName`:
every character after the first must be lowercase, digit, or hyphen. -/
def checkNameChars (msg : String) : List Char → Except String Unit
  | [] => .ok ()
  | c :: rest =>
    if isLowerCode c || isDigitCode c || isHyphenCode c then checkNameChars msg rest
    else .error msg

/-- Source `validateScopeName` : 1-32 chars, first lowercase, rest lowercase/digit/hyphen. -/
def validateScopeName (cs : List Char) : Except String Unit :=
  if cs.length < 1 ∨ MAX_SCOPE_LENGTH < cs.length then .error "Scope must be 1-32 characters"
  else
    match cs with
    | [] => .error "Scope must be 1-32 characters"
    | c :: rest =>
      if c.toNat < 97 ∨ 122 < c.toNat then .error "Scope must start with lowercase letter"
      else checkNameChars "Invalid character in scope" rest

/-- Source `validateUnscopedName` : 1-64 chars, first lowercase, rest lowercase/digit/hyphen. -/
def validateUnscopedName (cs : List Char) : Except String Unit :=
  if cs.length < 1 ∨ MAX_NAME_LENGTH < cs.length then .error "Name must be 1-64 characters"
  else
    match cs with
    | [] => .error "Name must be 1-64 characters"
    | c :: rest =>
      if c.toNat < 97 ∨ 122 < c.toNat then .error "Name must start with lowercase letter"
      else checkNameChars "Invalid character in name" rest

/-- Source `isScoped` : name starts with `'@'` (char code 64). -/
def isScoped : List Char → Bool
  | [] => false
  | c :: _ => c.toNat == 64

/-- Source `validatePackageName` : scoped names split at the first `/` into
`@scope` and `name` parts, each validated by its own rule. -/
def validatePackageName (cs : List Char) : Except String Unit :=
  if isScoped cs then
    match cs.findIdx? (fun c => c = '/') with
    | none => .error "Invalid scoped package format"
    | some i =>
      if i < 2 then .error "Invalid scoped package format"
      else
        match validateScopeName ((cs.drop 1).take (i - 1)) with
        | .error e => .error e
        | .ok () => validateUnscopedName (cs.drop (i + 1))
  else validateUnscopedName cs

/-- Source `extractScope` : the scope part of a scoped package name; the slash must be
at index ≥ 2 and must not be the last character. -/
def extractScope (cs : List Char) : Except String String :=
  match cs.findIdx? (fun c => c = '/') with
  | none => .error "Invalid scoped package format"
  | some i =>
    if i < 2 ∨ cs.length ≤ i + 1 then .error "Invalid scoped package format"
    else .ok (String.mk ((cs.drop 1).take (i - 1)))

/-- Source `validateIpfsCid` : 46-128 chars, starting with `Qm` (CIDv0) or `baf` (CIDv1). -/
def validateIpfsCid (cs : List Char) : Except String Unit :=
  if cs.length < 46 ∨ MAX_CID_LENGTH < cs.length then .error "CID must be 46-128 characters"
  else
    match cs with
    | c0 :: c1 :: c2 :: _ =>
      if (c0.toNat = 81 ∧ c1.toNat = 109) ∨ (c0.toNat = 98 ∧ c1.toNat = 97 ∧ c2.toNat = 102)
      then .ok ()
      else .error "CID must start with Qm or baf"
    | _ => .error "CID must start with Qm or baf"

/-- The per-character loop of `validateVersionString`, tracking `dotCount` and
`lastWasDot`; breaks (returning the current dot count) at the first hyphen
provided at least two dots were seen. -/
def versionLoop : List Char → Nat → Bool → Except String Nat
  | [], dotCount, _ => .ok dotCount
  | c :: rest, dotCount, lastWasDot =>
    if isHyphenCode c then
      if dotCount < 2 then .error "Invalid version format" else .ok dotCount
    else if isDotCode c then
      if lastWasDot then .error "Invalid version: consecutive dots"
      else versionLoop rest (dotCount + 1) true
    else if isDigitCode c then versionLoop rest dotCount false
    else .error "Invalid character in version"

/-- Source `validateVersionString` : 5-32 chars, first char a digit, then the loop. -/
def validateVersionString (cs : List Char) : Except String Unit :=
  if cs.length < 5 ∨ MAX_VERSION_LENGTH < cs.length then .error "Version must be 5-32 characters"
  else
    match cs with
    | [] => .error "Version must be 5-32 characters"
    | c :: _ =>
      if c.toNat < 48 ∨ 57 < c.toNat then .error "Version must start with digit"
      else
        match versionLoop cs 0 false with
        | .error e => .error e
        | .ok dotCount =>
          if dotCount < 2 then .error "Version must be semver (x.y.z)" else .ok ()

/-- Allowed characters of `validateOpnetVersionRange`:
digits, `.`, space, `< > = ^ ~`, `| &`, `x *`, `-`. -/
def rangeCharOk (c : Char) : Bool :=
  isDigitCode c || c.toNat == 46 || c.toNat == 32 || c.toNat == 60 || c.toNat == 62 ||
  c.toNat == 61 || c.toNat == 94 || c.toNat == 126 || c.toNat == 124 || c.toNat == 38 ||
  c.toNat == 120 || c.toNat == 42 || c.toNat == 45

/-- Source `validateOpnetVersionRange` : 1-64 chars, at least one digit, restricted charset. -/
def validateOpnetVersionRange (cs : List Char) : Except String Unit :=
  if cs.length = 0 ∨ MAX_OPNET_RANGE_LENGTH < cs.length then
    .error "OPNet range must be 1-64 characters"
  else if ¬ (cs.any isDigitCode) then .error "OPNet range must contain version number"
  else if cs.all rangeCharOk then .ok ()
  else .error "Invalid character in OPNet range"

/-- Bech32-ish character test of `validateTreasuryAddress`:
digits except `1`, lowercase except `b`,`i`,`o`. -/
def bech32CharOk (c : Char) : Bool :=
  (48 ≤ c.toNat && c.toNat ≤ 57 && c.toNat != 49) ||
  (97 ≤ c.toNat && c.toNat ≤ 122 && c.toNat != 98 && c.toNat != 105 && c.toNat != 111)

/-- Source `validateTreasuryAddress` : 42-62 chars, `bc1p`/`bc1q`, bech32 charset after. -/
def validateTreasuryAddress (cs : List Char) : Except String Unit :=
  if cs.length < 42 ∨ 62 < cs.length then .error "Invalid treasury address length"
  else
    match cs with
    | c0 :: c1 :: c2 :: c3 :: rest =>
      if c0.toNat ≠ 98 ∨ c1.toNat ≠ 99 ∨ c2.toNat ≠ 49 then
        .error "Treasury address must start with bc1"
      else if c3.toNat ≠ 112 ∧ c3.toNat ≠ 113 then
        .error "Treasury address must be bc1p or bc1q"
      else if rest.all bech32CharOk then .ok ()
      else .error "Invalid character in treasury address"
    | _ => .error "Treasury address must start with bc1"

/-- Source `validateChecksum` : the all-zero checksum is rejected. -/
def validateChecksum (checksum : Nat) : Except String Unit :=
  if checksum = 0 then .error "Checksum cannot be zero" else .ok ()

/-- Source `validateSignatureLength` : signature byte length must match the MLDSA level. -/
def validateSignatureLength (signature : List Nat) (mldsaLevel : Nat) : Except String Unit :=
  if mldsaLevel = 1 then
    if signature.length ≠ MLDSA44_SIG_SIZE then .error "Signature length mismatch for MLDSA level"
    else .ok ()
  else if mldsaLevel = 2 then
    if signature.length ≠ MLDSA65_SIG_SIZE then .error "Signature length mismatch for MLDSA level"
    else .ok ()
  else if mldsaLevel = 3 then
    if signature.length ≠ MLDSA87_SIG_SIZE then .error "Signature length mismatch for MLDSA level"
    else .ok ()
  else .error "Invalid MLDSA level"

/-! ## Transaction context and persistent state -/

/-- One transaction output (`TransactionOutput`): destination address string
(the source's `to` field) and value in satoshis. -/
structure TxOutput where
  dest : String
  value : Nat
deriving DecidableEq

/-- The ledger-supplied execution context: `Blockchain.tx.sender`,
`Blockchain.tx.origin`, the contract deployer identity (`onlyDeployer`'s
reference), `Blockchain.block.medianTimestamp`, and `Blockchain.tx.outputs`. -/
structure TxContext where
  sender : Nat
  origin : Nat
  deployer : Nat
  medianTimestamp : Nat
  outputs : List TxOutput

/-- Pointwise map update (the `StoredMapU256.set` / `AdvancedStoredString` write). -/
def upd {α : Type} (f : String → α) (k : String) (v : α) : String → α :=
  fun x => if x = k then v else f x

/-- The persistent storage of `PackageRegistry`, one field per storage pointer.
Maps are keyed by the canonical preimage strings of the SHA-256 storage keys
(see the header comment); unset slots hold `0` (`u256.Zero`) or `""`. -/
structure RegistryState where
  treasuryAddress : String
  scopePriceSats : Nat
  packagePriceSats : Nat
  scopeExists : String → Nat
  scopeOwner : String → Nat
  scopeCreated : String → Nat
  scopePendingOwner : String → Nat
  scopePendingTimestamp : String → Nat
  packageExists : String → Nat
  packageOwner : String → Nat
  packageCreated : String → Nat
  packageVersionCount : String → Nat
  packageLatestVersion : String → String
  pkgPendingOwner : String → Nat
  pkgPendingTimestamp : String → Nat
  versionExists : String → Nat
  versionChecksum : String → Nat
  versionSigHash : String → List Nat
  versionMldsaLevel : String → Nat
  versionPluginType : String → Nat
  versionPermHash : String → Nat
  versionDepsHash : String → List Nat
  versionPublisher : String → Nat
  versionTimestamp : String → Nat
  versionDeprecated : String → Nat
  versionIpfsCid : String → String
  versionOpnetRange : String → String
  versionDepReason : String → String

/-- Source `getVersionKeyU256(packageName, version) = H(packageName ++ ":" ++ version)`,
with `H` modelled as the canonical-string injection. -/
def versionKeyStr (packageName version : String) : String :=
  packageName ++ ":" ++ version

/-! ## Internal helpers -/

/-- Source `requireScopeOwner` : scope must exist and the sender must be its owner. -/
def requireScopeOwner (ctx : TxContext) (s : RegistryState) (scopeKey : String) :
    Except String Unit :=
  if s.scopeExists scopeKey = 0 then .error "Scope does not exist"
  else if ctx.sender ≠ s.scopeOwner scopeKey then .error "Not scope owner"
  else .ok ()

/-- Source `requirePackageOwner` : package must exist and the sender must be its owner. -/
def requirePackageOwner (ctx : TxContext) (s : RegistryState) (packageKey : String) :
    Except String Unit :=
  if s.packageExists packageKey = 0 then .error "Package does not exist"
  else if ctx.sender ≠ s.packageOwner packageKey then .error "Not package owner"
  else .ok ()

/-- Source `isWithinMutabilityWindow` : `currentTime <= publishTime + MUTABILITY_WINDOW`,
with the `u64` sum wrapping mod `2^64` as in the source language. -/
def isWithinMutabilityWindow (ctx : TxContext) (publishTime : Nat) : Bool :=
  ctx.medianTimestamp ≤ (publishTime + MUTABILITY_WINDOW) % 2 ^ 64

/-- The summation loop of `verifyPayment`: left fold over the transaction
outputs, adding the value of each output destined for the treasury address with
`SafeMath.add64` (which reverts on `u64` overflow). -/
def sumOutputsTo (treasury : String) : List TxOutput → Nat → Except String Nat
  | [], acc => .ok acc
  | o :: rest, acc =>
    if o.dest = treasury then
      if 2 ^ 64 ≤ acc + o.value then .error "SafeMath: addition overflow"
      else sumOutputsTo treasury rest (acc + o.value)
    else sumOutputsTo treasury rest acc

/-- Source `verifyPayment(requiredSats)` : sum treasury-destined outputs, revert with
`Insufficient payment` when the total is below the required amount. -/
def verifyPayment (ctx : TxContext) (s : RegistryState) (requiredSats : Nat) :
    Except String Unit :=
  match sumOutputsTo s.treasuryAddress ctx.outputs 0 with
  | .error e => .error e
  | .ok totalPaid =>
    if totalPaid < requiredSats then .error "Insufficient payment" else .ok ()

/-- Source `onlyDeployer` (from the runtime's `OP_NET` base class): the sender must be
the contract deployer. -/
def onlyDeployer (ctx : TxContext) : Except String Unit :=
  if ctx.sender ≠ ctx.deployer then .error "Only the deployer can call this function"
  else .ok ()

/-! ## Deployment -/

/-- Source `onDeployment` : set the treasury address (deployer's P2TR receive address
when the calldata string is empty), set default prices, and reserve the
`opnet` scope for the deployer.  All other storage is zero-initialized. -/
def deployState (treasuryCalldata : String) (originP2tr : String) (ctx : TxContext) :
    RegistryState :=
  { treasuryAddress := if treasuryCalldata.length > 0 then treasuryCalldata else originP2tr
    scopePriceSats := DEFAULT_SCOPE_PRICE_SATS
    packagePriceSats := DEFAULT_PACKAGE_PRICE_SATS
    scopeExists := upd (fun _ => 0) RESERVED_SCOPE 1
    scopeOwner := upd (fun _ => 0) RESERVED_SCOPE ctx.origin
    scopeCreated := upd (fun _ => 0) RESERVED_SCOPE ctx.medianTimestamp
    scopePendingOwner := fun _ => 0
    scopePendingTimestamp := fun _ => 0
    packageExists := fun _ => 0
    packageOwner := fun _ => 0
    packageCreated := fun _ => 0
    packageVersionCount := fun _ => 0
    packageLatestVersion := fun _ => ""
    pkgPendingOwner := fun _ => 0
    pkgPendingTimestamp := fun _ => 0
    versionExists := fun _ => 0
    versionChecksum := fun _ => 0
    versionSigHash := fun _ => []
    versionMldsaLevel := fun _ => 0
    versionPluginType := fun _ => 0
    versionPermHash := fun _ => 0
    versionDepsHash := fun _ => []
    versionPublisher := fun _ => 0
    versionTimestamp := fun _ => 0
    versionDeprecated := fun _ => 0
    versionIpfsCid := fun _ => ""
    versionOpnetRange := fun _ => ""
    versionDepReason := fun _ => "" }

/-! ## Admin methods -/

/-- Source `setTreasuryAddress` : deployer only; non-empty, format-validated. -/
def setTreasuryAddress (ctx : TxContext) (s : RegistryState) (newAddress : String) :
    Except String RegistryState :=
  match onlyDeployer ctx with
  | .error e => .error e
  | .ok () =>
    if newAddress.length = 0 then .error "Invalid treasury address"
    else
      match validateTreasuryAddress newAddress.data with
      | .error e => .error e
      | .ok () => .ok { s with treasuryAddress := newAddress }

/-- Source `setScopePrice` : deployer only. -/
def setScopePrice (ctx : TxContext) (s : RegistryState) (newPrice : Nat) :
    Except String RegistryState :=
  match onlyDeployer ctx with
  | .error e => .error e
  | .ok () => .ok { s with scopePriceSats := newPrice }

/-- Source `setPackagePrice` : deployer only. -/
def setPackagePrice (ctx : TxContext) (s : RegistryState) (newPrice : Nat) :
    Except String RegistryState :=
  match onlyDeployer ctx with
  | .error e => .error e
  | .ok () => .ok { s with packagePriceSats := newPrice }

/-! ## Scope methods -/

/-- Source `registerScope` : validate, reject the reserved name, reject duplicates,
verify payment of the scope price, then record the scope for the sender. -/
def registerScope (ctx : TxContext) (s : RegistryState) (scopeName : String) :
    Except String RegistryState :=
  match validateScopeName scopeName.data with
  | .error e => .error e
  | .ok () =>
    if scopeName = RESERVED_SCOPE then .error "Scope is reserved"
    else if s.scopeExists scopeName ≠ 0 then .error "Scope already exists"
    else
      match verifyPayment ctx s s.scopePriceSats with
      | .error e => .error e
      | .ok () =>
        .ok { s with
          scopeExists := upd s.scopeExists scopeName 1
          scopeOwner := upd s.scopeOwner scopeName ctx.sender
          scopeCreated := upd s.scopeCreated scopeName ctx.medianTimestamp }

/-- Source `initiateScopeTransfer` : owner only; pending owner must be non-zero. -/
def initiateScopeTransfer (ctx : TxContext) (s : RegistryState)
    (scopeName : String) (newOwner : Nat) : Except String RegistryState :=
  match requireScopeOwner ctx s scopeName with
  | .error e => .error e
  | .ok () =>
    if newOwner = 0 then .error "Invalid new owner"
    else
      .ok { s with
        scopePendingOwner := upd s.scopePendingOwner scopeName newOwner
        scopePendingTimestamp := upd s.scopePendingTimestamp scopeName ctx.medianTimestamp }

/-- Source `acceptScopeTransfer` : the sender must equal the (non-zero) pending owner;
ownership moves and the pending fields clear. -/
def acceptScopeTransfer (ctx : TxContext) (s : RegistryState) (scopeName : String) :
    Except String RegistryState :=
  if s.scopePendingOwner scopeName = 0 then .error "No pending transfer"
  else if ctx.sender ≠ s.scopePendingOwner scopeName then .error "Not pending owner"
  else
    .ok { s with
      scopeOwner := upd s.scopeOwner scopeName (s.scopePendingOwner scopeName)
      scopePendingOwner := upd s.scopePendingOwner scopeName 0
      scopePendingTimestamp := upd s.scopePendingTimestamp scopeName 0 }

/-- Source `cancelScopeTransfer` : owner only; a pending transfer must exist. -/
def cancelScopeTransfer (ctx : TxContext) (s : RegistryState) (scopeName : String) :
    Except String RegistryState :=
  match requireScopeOwner ctx s scopeName with
  | .error e => .error e
  | .ok () =>
    if s.scopePendingOwner scopeName = 0 then .error "No pending scope transfer"
    else
      .ok { s with
        scopePendingOwner := upd s.scopePendingOwner scopeName 0
        scopePendingTimestamp := upd s.scopePendingTimestamp scopeName 0 }

/-! ## Package methods -/

/-- Source `registerPackage` : validate the name; reject duplicates; scoped packages
require the parent scope to exist and the sender to own it (free), unscoped
packages require payment of the package price; then record the package. -/
def registerPackage (ctx : TxContext) (s : RegistryState) (packageName : String) :
    Except String RegistryState :=
  match validatePackageName packageName.data with
  | .error e => .error e
  | .ok () =>
    if s.packageExists packageName ≠ 0 then .error "Package already exists"
    else
      match
        (if isScoped packageName.data then
          match extractScope packageName.data with
          | .error e => .error e
          | .ok scopeName =>
            if s.scopeExists scopeName = 0 then .error "Scope does not exist"
            else if ctx.sender ≠ s.scopeOwner scopeName then .error "Not scope owner"
            else .ok ()
        else verifyPayment ctx s s.packagePriceSats) with
      | .error e => .error e
      | .ok () =>
        .ok { s with
          packageExists := upd s.packageExists packageName 1
          packageOwner := upd s.packageOwner packageName ctx.sender
          packageCreated := upd s.packageCreated packageName ctx.medianTimestamp
          packageVersionCount := upd s.packageVersionCount packageName 0 }

/-- The calldata of `publishVersion`. -/
structure PublishArgs where
  packageName : String
  version : String
  ipfsCid : String
  checksum : Nat
  signature : List Nat
  mldsaLevel : Nat
  opnetVersionRange : String
  pluginType : Nat
  permissionsHash : Nat
  dependencies : List Nat

/-- Source `publishVersion` : package must exist and be owned by the sender; all
fields validated; the version key must be fresh; stores the metadata (hashes of
the signature and dependency blobs, modelled injectively), unconditionally
overwrites `latestVersion`, and increments `versionCount` with `SafeMath.add`. -/
def publishVersion (ctx : TxContext) (s : RegistryState) (a : PublishArgs) :
    Except String RegistryState :=
  if s.packageExists a.packageName = 0 then .error "Package does not exist"
  else
    match requirePackageOwner ctx s a.packageName with
    | .error e => .error e
    | .ok () =>
      match validateVersionString a.version.data with
      | .error e => .error e
      | .ok () =>
        match validateIpfsCid a.ipfsCid.data with
        | .error e => .error e
        | .ok () =>
          match validateChecksum a.checksum with
          | .error e => .error e
          | .ok () =>
            match validateOpnetVersionRange a.opnetVersionRange.data with
            | .error e => .error e
            | .ok () =>
              if a.mldsaLevel < 1 ∨ 3 < a.mldsaLevel then .error "Invalid MLDSA level"
              else
                match validateSignatureLength a.signature a.mldsaLevel with
                | .error e => .error e
                | .ok () =>
                  if a.pluginType < 1 ∨ 2 < a.pluginType then .error "Invalid plugin type"
                  else if s.versionExists (versionKeyStr a.packageName a.version) ≠ 0 then
                    .error "Version already exists"
                  else if 2 ^ 256 ≤ s.packageVersionCount a.packageName + 1 then
                    .error "SafeMath: addition overflow"
                  else
                    .ok { s with
                      versionExists := upd s.versionExists (versionKeyStr a.packageName a.version) 1
                      versionChecksum :=
                        upd s.versionChecksum (versionKeyStr a.packageName a.version) a.checksum
                      versionSigHash :=
                        upd s.versionSigHash (versionKeyStr a.packageName a.version) a.signature
                      versionMldsaLevel :=
                        upd s.versionMldsaLevel (versionKeyStr a.packageName a.version) a.mldsaLevel
                      versionPluginType :=
                        upd s.versionPluginType (versionKeyStr a.packageName a.version) a.pluginType
                      versionPermHash :=
                        upd s.versionPermHash (versionKeyStr a.packageName a.version) a.permissionsHash
                      versionDepsHash :=
                        upd s.versionDepsHash (versionKeyStr a.packageName a.version) a.dependencies
                      versionPublisher :=
                        upd s.versionPublisher (versionKeyStr a.packageName a.version) ctx.sender
                      versionTimestamp :=
                        upd s.versionTimestamp (versionKeyStr a.packageName a.version)
                          ctx.medianTimestamp
                      versionDeprecated :=
                        upd s.versionDeprecated (versionKeyStr a.packageName a.version) 0
                      versionIpfsCid :=
                        upd s.versionIpfsCid (versionKeyStr a.packageName a.version) a.ipfsCid
                      versionOpnetRange :=
                        upd s.versionOpnetRange (versionKeyStr a.packageName a.version)
                          a.opnetVersionRange
                      packageLatestVersion :=
                        upd s.packageLatestVersion a.packageName a.version
                      packageVersionCount :=
                        upd s.packageVersionCount a.packageName
                          (s.packageVersionCount a.packageName + 1) }

/-- Source `deprecateVersion` : package and version must exist, sender must own the
package, the mutability window must be open, and the version must not already
be deprecated; then marks it deprecated and stores the reason. -/
def deprecateVersion (ctx : TxContext) (s : RegistryState)
    (packageName version reason : String) : Except String RegistryState :=
  if s.packageExists packageName = 0 then .error "Package does not exist"
  else if s.versionExists (versionKeyStr packageName version) = 0 then
    .error "Version does not exist"
  else
    match requirePackageOwner ctx s packageName with
    | .error e => .error e
    | .ok () =>
      if ! isWithinMutabilityWindow ctx (s.versionTimestamp (versionKeyStr packageName version))
      then .error "Version is immutable"
      else if s.versionDeprecated (versionKeyStr packageName version) ≠ 0 then
        .error "Already deprecated"
      else
        .ok { s with
          versionDeprecated := upd s.versionDeprecated (versionKeyStr packageName version) 1
          versionDepReason := upd s.versionDepReason (versionKeyStr packageName version) reason }

/-- Source `undeprecateVersion` : same guards, requires the version to be deprecated;
clears the flag and the reason string. -/
def undeprecateVersion (ctx : TxContext) (s : RegistryState)
    (packageName version : String) : Except String RegistryState :=
  if s.packageExists packageName = 0 then .error "Package does not exist"
  else if s.versionExists (versionKeyStr packageName version) = 0 then
    .error "Version does not exist"
  else
    match requirePackageOwner ctx s packageName with
    | .error e => .error e
    | .ok () =>
      if ! isWithinMutabilityWindow ctx (s.versionTimestamp (versionKeyStr packageName version))
      then .error "Version is immutable"
      else if s.versionDeprecated (versionKeyStr packageName version) = 0 then
        .error "Not deprecated"
      else
        .ok { s with
          versionDeprecated := upd s.versionDeprecated (versionKeyStr packageName version) 0
          versionDepReason := upd s.versionDepReason (versionKeyStr packageName version) "" }

/-- Source `initiateTransfer` : package owner only; pending owner must be non-zero. -/
def initiateTransfer (ctx : TxContext) (s : RegistryState)
    (packageName : String) (newOwner : Nat) : Except String RegistryState :=
  match requirePackageOwner ctx s packageName with
  | .error e => .error e
  | .ok () =>
    if newOwner = 0 then .error "Invalid new owner"
    else
      .ok { s with
        pkgPendingOwner := upd s.pkgPendingOwner packageName newOwner
        pkgPendingTimestamp := upd s.pkgPendingTimestamp packageName ctx.medianTimestamp }

/-- Source `acceptTransfer` : the sender must equal the (non-zero) pending owner;
ownership moves and the pending fields clear. -/
def acceptTransfer (ctx : TxContext) (s : RegistryState) (packageName : String) :
    Except String RegistryState :=
  if s.pkgPendingOwner packageName = 0 then .error "No pending transfer"
  else if ctx.sender ≠ s.pkgPendingOwner packageName then .error "Not pending owner"
  else
    .ok { s with
      packageOwner := upd s.packageOwner packageName (s.pkgPendingOwner packageName)
      pkgPendingOwner := upd s.pkgPendingOwner packageName 0
      pkgPendingTimestamp := upd s.pkgPendingTimestamp packageName 0 }

/-- Source `cancelTransfer` : package owner only; a pending transfer must exist. -/
def cancelTransfer (ctx : TxContext) (s : RegistryState) (packageName : String) :
    Except String RegistryState :=
  match requirePackageOwner ctx s packageName with
  | .error e => .error e
  | .ok () =>
    if s.pkgPendingOwner packageName = 0 then .error "No pending transfer"
    else
      .ok { s with
        pkgPendingOwner := upd s.pkgPendingOwner packageName 0
        pkgPendingTimestamp := upd s.pkgPendingTimestamp packageName 0 }

/-! ## View methods (point lookups; no revert paths in the source) -/

/-- Source `isDeprecated` : reads the deprecation flag at the version key. -/
def isDeprecated (s : RegistryState) (packageName version : String) : Bool :=
  s.versionDeprecated (versionKeyStr packageName version) ≠ 0

/-- Source `isImmutable` : `false` for a non-existent version, else whether the
mutability window has closed. -/
def isImmutable (ctx : TxContext) (s : RegistryState) (packageName version : String) : Bool :=
  if s.versionExists (versionKeyStr packageName version) = 0 then false
  else ! isWithinMutabilityWindow ctx (s.versionTimestamp (versionKeyStr packageName version))

/-- Source `getScopeOwner` : reads the owner slot (`u256 → Address` sends `0` to the
zero address). -/
def getScopeOwner (s : RegistryState) (scopeName : String) : Nat :=
  s.scopeOwner scopeName

/-- Source `getOwner` : reads the package owner slot. -/
def getOwner (s : RegistryState) (packageName : String) : Nat :=
  s.packageOwner packageName

/-! ## The public state-mutating interface as one step relation -/

/-- One invocation of a public state-mutating method with its calldata. -/
inductive Op where
  | setTreasuryAddress (addr : String)
  | setScopePrice (p : Nat)
  | setPackagePrice (p : Nat)
  | registerScope (name : String)
  | initiateScopeTransfer (name : String) (newOwner : Nat)
  | acceptScopeTransfer (name : String)
  | cancelScopeTransfer (name : String)
  | registerPackage (name : String)
  | publishVersion (a : PublishArgs)
  | deprecateVersion (pkg ver reason : String)
  | undeprecateVersion (pkg ver : String)
  | initiateTransfer (pkg : String) (newOwner : Nat)
  | acceptTransfer (pkg : String)
  | cancelTransfer (pkg : String)

/-- Dispatch one invocation. -/
def execOp (ctx : TxContext) (s : RegistryState) : Op → Except String RegistryState
  | .setTreasuryAddress addr => setTreasuryAddress ctx s addr
  | .setScopePrice p => setScopePrice ctx s p
  | .setPackagePrice p => setPackagePrice ctx s p
  | .registerScope name => registerScope ctx s name
  | .initiateScopeTransfer name newOwner => initiateScopeTransfer ctx s name newOwner
  | .acceptScopeTransfer name => acceptScopeTransfer ctx s name
  | .cancelScopeTransfer name => cancelScopeTransfer ctx s name
  | .registerPackage name => registerPackage ctx s name
  | .publishVersion a => publishVersion ctx s a
  | .deprecateVersion pkg ver reason => deprecateVersion ctx s pkg ver reason
  | .undeprecateVersion pkg ver => undeprecateVersion ctx s pkg ver
  | .initiateTransfer pkg newOwner => initiateTransfer ctx s pkg newOwner
  | .acceptTransfer pkg => acceptTransfer ctx s pkg
  | .cancelTransfer pkg => cancelTransfer ctx s pkg

/-- The persistent state after an invocation: on success the new state is
committed; on abort (`revertOnError` in the entry point) every pending write of
the invocation is discarded and the pre-state persists. -/
def applyOp (ctx : TxContext) (s : RegistryState) (op : Op) : RegistryState :=
  match execOp ctx s op with
  | .ok s' => s'
  | .error _ => s

/-- States reachable from deployment by any sequence of public invocations
whose transaction sender (and the deploying origin) is a non-zero identity. -/
inductive Reachable : RegistryState → Prop
  | deploy (treasuryCalldata originP2tr : String) (ctx : TxContext)
      (horigin : ctx.origin ≠ 0) :
      Reachable (deployState treasuryCalldata originP2tr ctx)
  | step (s : RegistryState) (ctx : TxContext) (op : Op)
      (hs : Reachable s) (hsender : ctx.sender ≠ 0) :
      Reachable (applyOp ctx s op)

/-! ## Specification-side predicates for the version-string validator (C8)

These definitions follow the words of the specification ("5–32 chars; first
char a digit; ≥2 literal dots before an optional `-`-introduced pre-release
suffix; no consecutive dots; digits and dots only before the suffix"), to be
compared with the source-derived `validateVersionString`. -/

/-- The part of the string before the `-`-introduced pre-release suffix. -/
def beforeHyphen (cs : List Char) : List Char :=
  cs.takeWhile (fun c => ! isHyphenCode c)

/-- Whether a `-`-introduced pre-release suffix is present. -/
def hasHyphen (cs : List Char) : Bool := cs.any isHyphenCode

/-- Number of literal dots. -/
def countDots : List Char → Nat
  | [] => 0
  | c :: rest => (if isDotCode c then 1 else 0) + countDots rest

/-- No two adjacent characters are both dots. -/
def noConsecDots : List Char → Bool
  | [] => true
  | [_] => true
  | c1 :: c2 :: rest => !(isDotCode c1 && isDotCode c2) && noConsecDots (c2 :: rest)

/-- Every character is a digit or a dot. -/
def allDigitOrDot : List Char → Bool
  | [] => true
  | c :: rest => (isDigitCode c || isDotCode c) && allDigitOrDot rest

/-- The first character is a digit. -/
def headIsDigit : List Char → Bool
  | [] => false
  | c :: _ => isDigitCode c

/-- The first character is a dot. -/
def headIsDot : List Char → Bool
  | [] => false
  | c :: _ => isDotCode c

/-- Source `noConsecDots` rephrased with the `lastWasDot` accumulator of the source loop. -/
def noConsecAux : Bool → List Char → Bool
  | _, [] => true
  | lw, c :: rest =>
    if isDotCode c then (!lw) && noConsecAux true rest else noConsecAux false rest

/-! ## Specification-side payment sum (C7)

Follows the claim's words: the sum of the values of exactly those transaction
outputs whose destination equals the treasury address. -/

def treasurySum (treasury : String) (outputs : List TxOutput) : Nat :=
  ((outputs.filter (fun o => o.dest = treasury)).map TxOutput.value).sum

/-! ## Concrete fixtures used by the witness theorems -/

/-- A concrete transaction context for witnesses: sender 5 is also the deployer
and the origin, and one output pays 100 sats to the address `treas`. -/
def ctxW : TxContext :=
  { sender := 5, origin := 5, deployer := 5, medianTimestamp := 1000,
    outputs := [⟨"treas", 100⟩] }

/-- A concrete state for witnesses: scope `myorg` owned by 5, package
`@myorg/cli` owned by 5 with one published version `1.0.0` (published at
time 100, not deprecated). -/
def stateW : RegistryState :=
  { treasuryAddress := "treas"
    scopePriceSats := 100
    packagePriceSats := 50
    scopeExists := upd (fun _ => 0) "myorg" 1
    scopeOwner := upd (fun _ => 0) "myorg" 5
    scopeCreated := upd (fun _ => 0) "myorg" 10
    scopePendingOwner := fun _ => 0
    scopePendingTimestamp := fun _ => 0
    packageExists := upd (fun _ => 0) "@myorg/cli" 1
    packageOwner := upd (fun _ => 0) "@myorg/cli" 5
    packageCreated := upd (fun _ => 0) "@myorg/cli" 10
    packageVersionCount := upd (fun _ => 0) "@myorg/cli" 1
    packageLatestVersion := upd (fun _ => "") "@myorg/cli" "1.0.0"
    pkgPendingOwner := fun _ => 0
    pkgPendingTimestamp := fun _ => 0
    versionExists := upd (fun _ => 0) "@myorg/cli:1.0.0" 1
    versionChecksum := upd (fun _ => 0) "@myorg/cli:1.0.0" 7
    versionSigHash := fun _ => []
    versionMldsaLevel := upd (fun _ => 0) "@myorg/cli:1.0.0" 2
    versionPluginType := upd (fun _ => 0) "@myorg/cli:1.0.0" 1
    versionPermHash := fun _ => 0
    versionDepsHash := fun _ => []
    versionPublisher := upd (fun _ => 0) "@myorg/cli:1.0.0" 5
    versionTimestamp := upd (fun _ => 0) "@myorg/cli:1.0.0" 100
    versionDeprecated := fun _ => 0
    versionIpfsCid := fun _ => ""
    versionOpnetRange := fun _ => ""
    versionDepReason := fun _ => "" }

/-- Concrete `publishVersion` calldata for witnesses: a fresh version `1.1.0`
of `@myorg/cli` with a valid CIDv0, an MLDSA-65-sized signature, and a valid
compatibility range. -/
def pubW : PublishArgs :=
  { packageName := "@myorg/cli", version := "1.1.0",
    ipfsCid := "QmYwAPJzv5CZsnA625s3Xf2nemtYgPpHdWEz79ojWnPbdG",
    checksum := 7, signature := List.replicate 3309 0, mldsaLevel := 2,
    opnetVersionRange := ">=1.0.0", pluginType := 1, permissionsHash := 3,
    dependencies := [1, 2, 3] }

/-- The concrete state with pending transfers to identity 9 on both the
package `@myorg/cli` and the scope `myorg`. -/
def statePendW : RegistryState :=
  { stateW with
    pkgPendingOwner := upd (fun _ => 0) "@myorg/cli" 9
    pkgPendingTimestamp := upd (fun _ => 0) "@myorg/cli" 20
    scopePendingOwner := upd (fun _ => 0) "myorg" 9
    scopePendingTimestamp := upd (fun _ => 0) "myorg" 20 }

/-- The concrete context with the pending owner 9 as transaction sender. -/
def ctxB : TxContext := { ctxW with sender := 9 }

/-- The inductive invariant of reachable registry states: existing scopes have
a non-zero owner; non-existent scopes have zero owner and no pending transfer;
non-existent packages have zero owner and no pending transfer; non-existent
versions are not deprecated. -/
structure StateInv (s : RegistryState) : Prop where
  scopeOwnerNz : ∀ n, s.scopeExists n ≠ 0 → s.scopeOwner n ≠ 0
  scopeOwnerZero : ∀ n, s.scopeExists n = 0 → s.scopeOwner n = 0
  scopePendZero : ∀ n, s.scopeExists n = 0 → s.scopePendingOwner n = 0
  pkgOwnerZero : ∀ n, s.packageExists n = 0 → s.packageOwner n = 0
  pkgPendZero : ∀ n, s.packageExists n = 0 → s.pkgPendingOwner n = 0
  verDepZero : ∀ k, s.versionExists k = 0 → s.versionDeprecated k = 0

/-! ## Lemmas -/

@[simp] theorem upd_same {α : Type} (f : String → α) (k : String) (v : α) :
    upd f k v k = v := by simp [upd]

theorem upd_ne {α : Type} (f : String → α) (k : String) (v : α) {x : String}
    (h : x ≠ k) : upd f k v x = f x := by simp [upd, h]

theorem noConsecDots_cons (c : Char) (rest : List Char) :
    noConsecDots (c :: rest) = (!(isDotCode c && headIsDot rest) && noConsecDots rest) := by
  cases rest <;> simp [noConsecDots, headIsDot]

theorem noConsecAux_eq (cs : List Char) :
    ∀ lw, noConsecAux lw cs = (!(lw && headIsDot cs) && noConsecDots cs) := by
  induction cs with
  | nil => intro lw; simp [noConsecAux, headIsDot, noConsecDots]
  | cons c rest ih =>
    intro lw
    rw [noConsecDots_cons]
    cases h : isDotCode c <;> cases lw <;>
      simp [noConsecAux, h, ih, headIsDot]

theorem noConsecAux_false (l : List Char) : noConsecAux false l = noConsecDots l := by
  rw [noConsecAux_eq]; simp

/-- Characterization of the `validateVersionString` loop: it succeeds with
result `r` exactly when the part before the suffix is made of digits and dots
with no consecutive dots (relative to the incoming `lastWasDot`), `r` is the
accumulated dot count, and — when a suffix is present — at least two dots were
seen before it. -/
theorem versionLoop_ok_iff (cs : List Char) :
    ∀ (dc : Nat) (lw : Bool) (r : Nat),
      versionLoop cs dc lw = .ok r ↔
        (allDigitOrDot (beforeHyphen cs) = true ∧
         noConsecAux lw (beforeHyphen cs) = true ∧
         r = dc + countDots (beforeHyphen cs) ∧
         (hasHyphen cs = true → 2 ≤ dc + countDots (beforeHyphen cs))) := by
  induction cs with
  | nil =>
    intro dc lw r
    simp only [versionLoop, beforeHyphen, List.takeWhile_nil, hasHyphen, List.any_nil,
      allDigitOrDot, noConsecAux, countDots, Nat.add_zero]
    constructor
    · intro h
      injection h with h
      exact ⟨trivial, trivial, h.symm, by intro h'; simp at h'⟩
    · rintro ⟨-, -, rfl, -⟩; rfl
  | cons c rest ih =>
    intro dc lw r
    by_cases hh : isHyphenCode c = true
    · have hbh : beforeHyphen (c :: rest) = [] := by
        simp [beforeHyphen, List.takeWhile_cons, hh]
      have hhy : hasHyphen (c :: rest) = true := by simp [hasHyphen, hh]
      rw [hbh, hhy]
      simp only [versionLoop, hh, if_true, allDigitOrDot, noConsecAux, countDots,
        Nat.add_zero]
      by_cases hdc : dc < 2
      · simp only [hdc, if_true]
        constructor
        · intro h; simp at h
        · rintro ⟨-, -, -, h⟩; exact absurd (h trivial) (by omega)
      · simp only [hdc, if_false]
        constructor
        · intro h
          injection h with h
          exact ⟨trivial, trivial, h.symm, fun _ => by omega⟩
        · rintro ⟨-, -, rfl, -⟩; rfl
    · have hh' : isHyphenCode c = false := by simpa using hh
      have hbh : beforeHyphen (c :: rest) = c :: beforeHyphen rest := by
        simp [beforeHyphen, List.takeWhile_cons, hh']
      have hhy : hasHyphen (c :: rest) = hasHyphen rest := by
        simp [hasHyphen, List.any_cons, hh']
      rw [hbh, hhy]
      by_cases hd : isDotCode c = true
      · cases lw with
        | true =>
          simp only [versionLoop, hh', hd, Bool.false_eq_true, if_false, if_true,
            noConsecAux, Bool.not_true, Bool.false_and]
          constructor
          · intro h; simp at h
          · rintro ⟨-, h, -⟩; simp at h
        | false =>
          simp only [versionLoop, hh', hd, Bool.false_eq_true, if_false, if_true]
          rw [ih (dc + 1) true r]
          simp only [allDigitOrDot, noConsecAux, countDots, hd, Bool.or_true, if_true,
            Bool.true_and, Bool.not_false]
          have harith : dc + 1 + countDots (beforeHyphen rest) =
              dc + (1 + countDots (beforeHyphen rest)) := by omega
          rw [harith]
      · have hd' : isDotCode c = false := by simpa using hd
        by_cases hg : isDigitCode c = true
        · simp only [versionLoop, hh', hd', hg, Bool.false_eq_true, if_false, if_true]
          rw [ih dc false r]
          simp only [allDigitOrDot, noConsecAux, countDots, hd', hg, Bool.true_or,
            Bool.true_and, Bool.false_eq_true, if_false, Nat.zero_add]
        · have hg' : isDigitCode c = false := by simpa using hg
          simp only [versionLoop, hh', hd', hg', Bool.false_eq_true, if_false,
            allDigitOrDot, Bool.or_self, Bool.false_and, false_and]
          constructor
          · intro h; simp at h
          · rintro ⟨h, -⟩

/-- Source `validateVersionString` accepts exactly the strings of 5-32 characters
that start with a digit and whose part before the `-` suffix consists of
digits and dots only, has at least two dots, and no consecutive dots. -/
theorem validateVersionString_ok_iff (cs : List Char) :
    validateVersionString cs = .ok () ↔
      (5 ≤ cs.length ∧ cs.length ≤ 32 ∧ headIsDigit cs = true ∧
       2 ≤ countDots (beforeHyphen cs) ∧
       noConsecDots (beforeHyphen cs) = true ∧
       allDigitOrDot (beforeHyphen cs) = true) := by
  unfold validateVersionString
  by_cases hlen : cs.length < 5 ∨ MAX_VERSION_LENGTH < cs.length
  · rw [if_pos hlen]
    simp only [MAX_VERSION_LENGTH] at hlen
    constructor
    · intro h; simp at h
    · rintro ⟨h1, h2, -⟩; exfalso; omega
  · rw [if_neg hlen]
    simp only [MAX_VERSION_LENGTH, not_or, not_lt] at hlen
    obtain ⟨hlo, hhi⟩ := hlen
    cases cs with
    | nil => simp at hlo
    | cons c rest =>
      dsimp only
      by_cases hfirst : c.toNat < 48 ∨ 57 < c.toNat
      · rw [if_pos hfirst]
        have hnd : isDigitCode c = false := by
          simp [isDigitCode]; omega
        constructor
        · intro h; simp at h
        · rintro ⟨-, -, hd, -⟩
          simp [headIsDigit, hnd] at hd
      · rw [if_neg hfirst]
        have hdig : isDigitCode c = true := by
          push_neg at hfirst
          simp [isDigitCode]
          omega
        cases hloop : versionLoop (c :: rest) 0 false with
        | error e =>
          constructor
          · intro h; simp at h
          · rintro ⟨-, -, -, hcd, hnc, hdd⟩
            have hok : versionLoop (c :: rest) 0 false =
                .ok (0 + countDots (beforeHyphen (c :: rest))) := by
              rw [versionLoop_ok_iff]
              exact ⟨hdd, by rw [noConsecAux_false]; exact hnc, rfl, fun _ => by omega⟩
            rw [hloop] at hok
            simp at hok
        | ok dc =>
          obtain ⟨hdd, hnc, hdc, -⟩ := (versionLoop_ok_iff (c :: rest) 0 false dc).mp hloop
          rw [noConsecAux_false] at hnc
          by_cases h2 : dc < 2
          · constructor
            · intro h
              dsimp only at h
              rw [if_pos h2] at h
              simp at h
            · rintro ⟨-, -, -, hcd, -, -⟩
              exfalso; omega
          · constructor
            · intro _
              refine ⟨hlo, hhi, ?_, by omega, hnc, hdd⟩
              simp [headIsDigit, hdig]
            · intro _
              dsimp only
              rw [if_neg h2]

theorem sumOutputsTo_ok (treasury : String) :
    ∀ (outputs : List TxOutput) (acc : Nat),
      acc + treasurySum treasury outputs < 2 ^ 64 →
      sumOutputsTo treasury outputs acc = .ok (acc + treasurySum treasury outputs) := by
  intro outputs
  induction outputs with
  | nil => intro acc h; simp [sumOutputsTo, treasurySum]
  | cons o rest ih =>
    intro acc h
    by_cases hdest : o.dest = treasury
    · have hsum : treasurySum treasury (o :: rest) =
          o.value + treasurySum treasury rest := by
        simp [treasurySum, List.filter_cons, hdest]
      rw [hsum] at h ⊢
      have hnof : ¬ 2 ^ 64 ≤ acc + o.value := by omega
      rw [sumOutputsTo, if_pos hdest, if_neg hnof, ih (acc + o.value) (by omega)]
      congr 1
      omega
    · have hsum : treasurySum treasury (o :: rest) = treasurySum treasury rest := by
        simp [treasurySum, List.filter_cons, hdest]
      rw [hsum] at h ⊢
      rw [sumOutputsTo, if_neg hdest, ih acc h]

/-! ## Claims -/

/-- C8 (counterexample): the claim requires acceptance only of strings with no
consecutive dots, but `validateVersionString` accepts `1.2.3-a..b`, whose
pre-release suffix contains consecutive dots: the per-character loop stops at
the first hyphen and the suffix is never inspected. -/
theorem claim_C8_counterexample :
    validateVersionString "1.2.3-a..b".data = .ok () ∧
    noConsecDots "1.2.3-a..b".data = false := by
  constructor <;> rfl

/-- C8 (amended): `validateVersionString` accepts a string iff it is 5-32
characters long, starts with a digit, and its part before any `-`-introduced
pre-release suffix contains at least two literal dots, has no consecutive
dots, and consists of digits and dots only.  (The no-consecutive-dots
condition holds of the part before the suffix, not of the whole string.) -/
theorem claim_C8_version_validator_iff (cs : List Char) :
    validateVersionString cs = .ok () ↔
      (5 ≤ cs.length ∧ cs.length ≤ 32 ∧ headIsDigit cs = true ∧
       2 ≤ countDots (beforeHyphen cs) ∧
       noConsecDots (beforeHyphen cs) = true ∧
       allDigitOrDot (beforeHyphen cs) = true) :=
  validateVersionString_ok_iff cs

/-- C7: `verifyPayment` sums exactly the treasury-destined outputs
(`treasurySum`), fails with `Insufficient payment` iff that sum is strictly
below `requiredSats`, succeeds otherwise, and in particular always succeeds
when `requiredSats` is 0.  (Hypothesis: the mathematical sum fits in `u64`,
as it always does for real satoshi amounts; otherwise `SafeMath.add64`
reverts with an overflow error.) -/
theorem claim_C7_verifyPayment (ctx : TxContext) (s : RegistryState) (requiredSats : Nat)
    (hsum : treasurySum s.treasuryAddress ctx.outputs < 2 ^ 64) :
    (verifyPayment ctx s requiredSats = .error "Insufficient payment" ↔
      treasurySum s.treasuryAddress ctx.outputs < requiredSats) ∧
    (requiredSats ≤ treasurySum s.treasuryAddress ctx.outputs →
      verifyPayment ctx s requiredSats = .ok ()) ∧
    (requiredSats = 0 → verifyPayment ctx s requiredSats = .ok ()) := by
  have h0 : sumOutputsTo s.treasuryAddress ctx.outputs 0 =
      .ok (treasurySum s.treasuryAddress ctx.outputs) := by
    have := sumOutputsTo_ok s.treasuryAddress ctx.outputs 0 (by omega)
    simpa using this
  unfold verifyPayment
  rw [h0]
  dsimp only
  refine ⟨?_, ?_, ?_⟩
  · by_cases hlt : treasurySum s.treasuryAddress ctx.outputs < requiredSats
    · rw [if_pos hlt]; simp [hlt]
    · rw [if_neg hlt]; simp [hlt]
  · intro hge
    rw [if_neg (by omega)]
  · intro h0'
    rw [if_neg (by omega)]

/-- C7 witness: at the concrete context (one output of 100 sats to the
treasury), the sum fits in `u64` and the characterization holds for
`requiredSats = 150`. -/
theorem claim_C7_verifyPayment_witness :
    treasurySum stateW.treasuryAddress ctxW.outputs < 2 ^ 64 ∧
    ((verifyPayment ctxW stateW 150 = .error "Insufficient payment" ↔
      treasurySum stateW.treasuryAddress ctxW.outputs < 150) ∧
     (150 ≤ treasurySum stateW.treasuryAddress ctxW.outputs →
      verifyPayment ctxW stateW 150 = .ok ()) ∧
     (150 = 0 → verifyPayment ctxW stateW 150 = .ok ())) :=
  ⟨by decide, claim_C7_verifyPayment ctxW stateW 150 (by decide)⟩

/-- C6: if any public state-mutating invocation aborts with an error, the
committed post-state equals the pre-state: all pending writes of the
invocation are discarded and no partial mutation is observable. -/
theorem claim_C6_atomicity (ctx : TxContext) (s : RegistryState) (op : Op) (e : String)
    (h : execOp ctx s op = .error e) : applyOp ctx s op = s := by
  unfold applyOp
  rw [h]

/-- C6 witness: registering the reserved scope name aborts, and the committed
state is unchanged. -/
theorem claim_C6_atomicity_witness :
    execOp ctxW stateW (.registerScope "opnet") = .error "Scope is reserved" ∧
    applyOp ctxW stateW (.registerScope "opnet") = stateW :=
  ⟨by rfl, claim_C6_atomicity ctxW stateW (.registerScope "opnet") "Scope is reserved" (by rfl)⟩

/-- C5: `registerScope` fails when the name is malformed (propagating the
validator's error), when it equals the reserved name `opnet` (owned by the
deployer from genesis), or when the scope is already registered; otherwise,
once payment of the scope price is verified, it sets `exists = 1`,
`owner = sender` and `createdAt = now` for that scope. -/
theorem claim_C5_registerScope (ctx : TxContext) (s : RegistryState) (scopeName : String) :
    (∀ e, validateScopeName scopeName.data = .error e →
      registerScope ctx s scopeName = .error e) ∧
    (registerScope ctx s RESERVED_SCOPE = .error "Scope is reserved") ∧
    (validateScopeName scopeName.data = .ok () → scopeName ≠ RESERVED_SCOPE →
      s.scopeExists scopeName ≠ 0 →
      registerScope ctx s scopeName = .error "Scope already exists") ∧
    (validateScopeName scopeName.data = .ok () → scopeName ≠ RESERVED_SCOPE →
      s.scopeExists scopeName = 0 →
      treasurySum s.treasuryAddress ctx.outputs < 2 ^ 64 →
      s.scopePriceSats ≤ treasurySum s.treasuryAddress ctx.outputs →
      ∃ s', registerScope ctx s scopeName = .ok s' ∧
        s'.scopeExists scopeName = 1 ∧
        s'.scopeOwner scopeName = ctx.sender ∧
        s'.scopeCreated scopeName = ctx.medianTimestamp) := by
  refine ⟨?_, ?_, ?_, ?_⟩
  · intro e he
    unfold registerScope
    rw [he]
  · rfl
  · intro hv hne hex
    unfold registerScope
    rw [hv]
    dsimp only
    rw [if_neg hne, if_pos hex]
  · intro hv hne hz hsum hpay
    have h0 : sumOutputsTo s.treasuryAddress ctx.outputs 0 =
        .ok (treasurySum s.treasuryAddress ctx.outputs) := by
      simpa using sumOutputsTo_ok s.treasuryAddress ctx.outputs 0 (by omega)
    have hvp : verifyPayment ctx s s.scopePriceSats = .ok () := by
      unfold verifyPayment
      rw [h0]
      dsimp only
      rw [if_neg (by omega)]
    unfold registerScope
    rw [hv]
    dsimp only
    rw [if_neg hne, if_neg (fun h => h hz), hvp]
    exact ⟨_, rfl, by simp, by simp, by simp⟩

/-- C5 witness: registering the fresh scope `neworg` at the concrete state
(payment of 100 sats covering the scope price of 100 sats) succeeds and
records the sender as owner. -/
theorem claim_C5_registerScope_witness :
    ∃ s', registerScope ctxW stateW "neworg" = .ok s' ∧
      s'.scopeExists "neworg" = 1 ∧
      s'.scopeOwner "neworg" = ctxW.sender ∧
      s'.scopeCreated "neworg" = ctxW.medianTimestamp :=
  (claim_C5_registerScope ctxW stateW "neworg").2.2.2 (by rfl) (by decide) (by decide)
    (by decide) (by decide)

/-- C4: for a valid, not-yet-registered package name, `registerPackage` with a
scoped name succeeds with zero required payment (independently of the
transaction outputs) when the parent scope exists and the caller owns it,
fails with `Not scope owner` when the scope exists but the caller does not own
it, and fails with `Scope does not exist` when the parent scope is absent; an
unscoped name instead requires payment of the flat package price.  Every
success records the caller as owner and sets `versionCount` to 0. -/
theorem claim_C4_registerPackage (ctx : TxContext) (s : RegistryState) (packageName : String)
    (hvalid : validatePackageName packageName.data = .ok ())
    (hnew : s.packageExists packageName = 0) :
    (∀ scopeName, isScoped packageName.data = true →
      extractScope packageName.data = .ok scopeName →
      ((s.scopeExists scopeName = 0 →
          registerPackage ctx s packageName = .error "Scope does not exist") ∧
       (s.scopeExists scopeName ≠ 0 → ctx.sender ≠ s.scopeOwner scopeName →
          registerPackage ctx s packageName = .error "Not scope owner") ∧
       (s.scopeExists scopeName ≠ 0 → ctx.sender = s.scopeOwner scopeName →
          ∃ s', registerPackage ctx s packageName = .ok s' ∧
            s'.packageOwner packageName = ctx.sender ∧
            s'.packageVersionCount packageName = 0))) ∧
    (isScoped packageName.data = false →
      ((treasurySum s.treasuryAddress ctx.outputs < 2 ^ 64 →
        treasurySum s.treasuryAddress ctx.outputs < s.packagePriceSats →
          registerPackage ctx s packageName = .error "Insufficient payment") ∧
       (treasurySum s.treasuryAddress ctx.outputs < 2 ^ 64 →
        s.packagePriceSats ≤ treasurySum s.treasuryAddress ctx.outputs →
          ∃ s', registerPackage ctx s packageName = .ok s' ∧
            s'.packageOwner packageName = ctx.sender ∧
            s'.packageVersionCount packageName = 0))) := by
  constructor
  · intro scopeName hscoped hsc
    refine ⟨?_, ?_, ?_⟩
    · intro hz
      unfold registerPackage
      rw [hvalid]
      dsimp only
      rw [if_neg (fun h => h hnew), if_pos hscoped, hsc]
      dsimp only
      rw [if_pos hz]
    · intro hex hnown
      unfold registerPackage
      rw [hvalid]
      dsimp only
      rw [if_neg (fun h => h hnew), if_pos hscoped, hsc]
      dsimp only
      rw [if_neg hex, if_pos hnown]
    · intro hex hown
      unfold registerPackage
      rw [hvalid]
      dsimp only
      rw [if_neg (fun h => h hnew), if_pos hscoped, hsc]
      dsimp only
      rw [if_neg hex, if_neg (not_not_intro hown)]
      exact ⟨_, rfl, by simp, by simp⟩
  · intro hus
    have hnotsc : ¬ isScoped packageName.data = true := by simp [hus]
    constructor
    · intro hsum hshort
      have h0 : sumOutputsTo s.treasuryAddress ctx.outputs 0 =
          .ok (treasurySum s.treasuryAddress ctx.outputs) := by
        simpa using sumOutputsTo_ok s.treasuryAddress ctx.outputs 0 (by omega)
      unfold registerPackage
      rw [hvalid]
      dsimp only
      rw [if_neg (fun h => h hnew), if_neg hnotsc]
      unfold verifyPayment
      rw [h0]
      dsimp only
      rw [if_pos hshort]
    · intro hsum hpay
      have h0 : sumOutputsTo s.treasuryAddress ctx.outputs 0 =
          .ok (treasurySum s.treasuryAddress ctx.outputs) := by
        simpa using sumOutputsTo_ok s.treasuryAddress ctx.outputs 0 (by omega)
      unfold registerPackage
      rw [hvalid]
      dsimp only
      rw [if_neg (fun h => h hnew), if_neg hnotsc]
      unfold verifyPayment
      rw [h0]
      dsimp only
      rw [if_neg (by omega)]
      exact ⟨_, rfl, by simp, by simp⟩

/-- C4 witness: the scope owner registers `@myorg/tool` at the concrete state
with no payment required; the package is created with `versionCount = 0`. -/
theorem claim_C4_registerPackage_witness :
    ∃ s', registerPackage ctxW stateW "@myorg/tool" = .ok s' ∧
      s'.packageOwner "@myorg/tool" = ctxW.sender ∧
      s'.packageVersionCount "@myorg/tool" = 0 :=
  (((claim_C4_registerPackage ctxW stateW "@myorg/tool" (by rfl) (by decide)).1 "myorg"
      (by rfl) (by rfl)).2.2 (by decide) (by decide))

theorem requirePackageOwner_ok {ctx : TxContext} {s : RegistryState} {k : String}
    (h : requirePackageOwner ctx s k = .ok ()) :
    s.packageExists k ≠ 0 ∧ ctx.sender = s.packageOwner k := by
  unfold requirePackageOwner at h
  split at h
  · exact absurd h (by simp)
  · split at h
    · exact absurd h (by simp)
    · rename_i h1 h2
      exact ⟨h1, not_not.mp h2⟩

theorem requirePackageOwner_ok_of {ctx : TxContext} {s : RegistryState} {k : String}
    (hex : s.packageExists k ≠ 0) (hown : ctx.sender = s.packageOwner k) :
    requirePackageOwner ctx s k = .ok () := by
  unfold requirePackageOwner
  rw [if_neg hex, if_neg (not_not_intro hown)]

theorem requireScopeOwner_ok {ctx : TxContext} {s : RegistryState} {k : String}
    (h : requireScopeOwner ctx s k = .ok ()) :
    s.scopeExists k ≠ 0 ∧ ctx.sender = s.scopeOwner k := by
  unfold requireScopeOwner at h
  split at h
  · exact absurd h (by simp)
  · split at h
    · exact absurd h (by simp)
    · rename_i h1 h2
      exact ⟨h1, not_not.mp h2⟩

theorem requireScopeOwner_ok_of {ctx : TxContext} {s : RegistryState} {k : String}
    (hex : s.scopeExists k ≠ 0) (hown : ctx.sender = s.scopeOwner k) :
    requireScopeOwner ctx s k = .ok () := by
  unfold requireScopeOwner
  rw [if_neg hex, if_neg (not_not_intro hown)]

/-- C1: for an existing package, `publishVersion` never succeeds when the
derived version key already exists (publication is append-only); and on every
success it increments the package's `versionCount` by exactly one and
unconditionally overwrites `latestVersion` with the newly published version
string — the stored value is the argument itself, with no semantic-version
comparison against the previous value. -/
theorem claim_C1_publish_append_only (ctx : TxContext) (s : RegistryState) (a : PublishArgs)
    (hpkg : s.packageExists a.packageName ≠ 0) :
    (s.versionExists (versionKeyStr a.packageName a.version) ≠ 0 →
      ∀ s', publishVersion ctx s a ≠ .ok s') ∧
    (∀ s', publishVersion ctx s a = .ok s' →
      s'.packageVersionCount a.packageName = s.packageVersionCount a.packageName + 1 ∧
      s'.packageLatestVersion a.packageName = a.version) := by
  constructor
  · intro hex s' h
    unfold publishVersion at h
    repeat' split at h
    all_goals first
      | (exact Except.noConfusion h)
      | (exact absurd hex (by assumption))
  · intro s' h
    unfold publishVersion at h
    repeat' split at h
    all_goals try (exact Except.noConfusion h)
    injection h with h
    subst h
    constructor <;> simp

/-- C1 witness: the concrete state has `@myorg/cli` registered, so the theorem
applies to the concrete publish calldata. -/
theorem claim_C1_publish_append_only_witness :
    stateW.packageExists pubW.packageName ≠ 0 ∧
    ((stateW.versionExists (versionKeyStr pubW.packageName pubW.version) ≠ 0 →
       ∀ s', publishVersion ctxW stateW pubW ≠ .ok s') ∧
     (∀ s', publishVersion ctxW stateW pubW = .ok s' →
       s'.packageVersionCount pubW.packageName = stateW.packageVersionCount pubW.packageName + 1 ∧
       s'.packageLatestVersion pubW.packageName = pubW.version)) :=
  ⟨by decide, claim_C1_publish_append_only ctxW stateW pubW (by decide)⟩

/-- C2: for an existing package and version whose caller is the package owner
(and with `publishedAt + MUTABILITY_WINDOW` in `u64` range, as for every real
timestamp): outside the mutability window both `deprecateVersion` and
`undeprecateVersion` fail with `Version is immutable`; inside the window,
deprecating an already-deprecated version fails, undeprecating a
non-deprecated version fails, and `deprecateVersion` immediately followed by
`undeprecateVersion` restores `deprecated = false` and clears the stored
reason string. -/
theorem claim_C2_deprecation_window (ctx : TxContext) (s : RegistryState)
    (packageName version reason : String)
    (hpkg : s.packageExists packageName ≠ 0)
    (hver : s.versionExists (versionKeyStr packageName version) ≠ 0)
    (hown : ctx.sender = s.packageOwner packageName)
    (hfit : s.versionTimestamp (versionKeyStr packageName version) + MUTABILITY_WINDOW < 2 ^ 64) :
    (¬ ctx.medianTimestamp ≤
        s.versionTimestamp (versionKeyStr packageName version) + MUTABILITY_WINDOW →
      deprecateVersion ctx s packageName version reason = .error "Version is immutable" ∧
      undeprecateVersion ctx s packageName version = .error "Version is immutable") ∧
    (ctx.medianTimestamp ≤
        s.versionTimestamp (versionKeyStr packageName version) + MUTABILITY_WINDOW →
      (s.versionDeprecated (versionKeyStr packageName version) ≠ 0 →
        deprecateVersion ctx s packageName version reason = .error "Already deprecated") ∧
      (s.versionDeprecated (versionKeyStr packageName version) = 0 →
        undeprecateVersion ctx s packageName version = .error "Not deprecated") ∧
      (s.versionDeprecated (versionKeyStr packageName version) = 0 →
        ∃ s1 s2, deprecateVersion ctx s packageName version reason = .ok s1 ∧
          undeprecateVersion ctx s1 packageName version = .ok s2 ∧
          s2.versionDeprecated (versionKeyStr packageName version) = 0 ∧
          s2.versionDepReason (versionKeyStr packageName version) = "")) := by
  have hmod : (s.versionTimestamp (versionKeyStr packageName version) + MUTABILITY_WINDOW)
      % 2 ^ 64 = s.versionTimestamp (versionKeyStr packageName version) + MUTABILITY_WINDOW :=
    Nat.mod_eq_of_lt hfit
  have hreq : requirePackageOwner ctx s packageName = .ok () :=
    requirePackageOwner_ok_of hpkg hown
  constructor
  · intro hout
    have hwinf : isWithinMutabilityWindow ctx
        (s.versionTimestamp (versionKeyStr packageName version)) = false := by
      simp only [isWithinMutabilityWindow, hmod, decide_eq_false_iff_not]
      exact hout
    constructor
    · unfold deprecateVersion
      rw [if_neg hpkg, if_neg hver, hreq]
      dsimp only
      rw [if_pos (by simp [hwinf])]
    · unfold undeprecateVersion
      rw [if_neg hpkg, if_neg hver, hreq]
      dsimp only
      rw [if_pos (by simp [hwinf])]
  · intro hin
    have hwint : isWithinMutabilityWindow ctx
        (s.versionTimestamp (versionKeyStr packageName version)) = true := by
      simp only [isWithinMutabilityWindow, hmod, decide_eq_true_eq]
      exact hin
    refine ⟨?_, ?_, ?_⟩
    · intro hdep
      unfold deprecateVersion
      rw [if_neg hpkg, if_neg hver, hreq]
      dsimp only
      rw [if_neg (by simp [hwint]), if_pos hdep]
    · intro hnotdep
      unfold undeprecateVersion
      rw [if_neg hpkg, if_neg hver, hreq]
      dsimp only
      rw [if_neg (by simp [hwint]), if_pos hnotdep]
    · intro hnotdep
      refine ⟨{ s with
          versionDeprecated := upd s.versionDeprecated (versionKeyStr packageName version) 1
          versionDepReason := upd s.versionDepReason (versionKeyStr packageName version) reason },
        { s with
          versionDeprecated :=
            upd (upd s.versionDeprecated (versionKeyStr packageName version) 1)
              (versionKeyStr packageName version) 0
          versionDepReason :=
            upd (upd s.versionDepReason (versionKeyStr packageName version) reason)
              (versionKeyStr packageName version) "" }, ?_, ?_, ?_, ?_⟩
      · unfold deprecateVersion
        rw [if_neg hpkg, if_neg hver, hreq]
        dsimp only
        rw [if_neg (by simp [hwint]), if_neg (not_not_intro hnotdep)]
      · unfold undeprecateVersion
        dsimp only
        rw [if_neg hpkg, if_neg hver]
        have hreq' : requirePackageOwner ctx
            { s with
              versionDeprecated := upd s.versionDeprecated (versionKeyStr packageName version) 1
              versionDepReason :=
                upd s.versionDepReason (versionKeyStr packageName version) reason }
            packageName = .ok () := requirePackageOwner_ok_of hpkg hown
        rw [hreq']
        dsimp only
        rw [if_neg (by simp [hwint]), if_neg (by simp)]
      · simp
      · simp

/-- C2 witness: at the concrete state (version published at time 100, clock at
1000, window 259200 seconds) the round trip deprecate-then-undeprecate
restores the non-deprecated state and clears the reason. -/
theorem claim_C2_deprecation_window_witness :
    ∃ s1 s2, deprecateVersion ctxW stateW "@myorg/cli" "1.0.0" "bad" = .ok s1 ∧
      undeprecateVersion ctxW s1 "@myorg/cli" "1.0.0" = .ok s2 ∧
      s2.versionDeprecated (versionKeyStr "@myorg/cli" "1.0.0") = 0 ∧
      s2.versionDepReason (versionKeyStr "@myorg/cli" "1.0.0") = "" :=
  ((claim_C2_deprecation_window ctxW stateW "@myorg/cli" "1.0.0" "bad" (by decide) (by decide)
      (by decide) (by decide)).2 (by decide)).2.2 (by decide)

/-- C3: for a package (and a scope) with a pending transfer to a non-zero
identity B, `acceptTransfer` succeeds exactly when the caller equals B — on
success the owner becomes B and the pending fields clear — and fails with
`Not pending owner` for every other caller; `cancelTransfer` requires the
caller to be the current owner and a pending transfer to exist, and on
success clears the pending fields without changing the owner. -/
theorem claim_C3_two_step_transfer (ctx : TxContext) (s : RegistryState) (name : String)
    (B : Nat) (hB : B ≠ 0) :
    (s.pkgPendingOwner name = B →
      ((ctx.sender = B →
         ∃ s', acceptTransfer ctx s name = .ok s' ∧
           s'.packageOwner name = B ∧ s'.pkgPendingOwner name = 0 ∧
           s'.pkgPendingTimestamp name = 0) ∧
       (ctx.sender ≠ B → acceptTransfer ctx s name = .error "Not pending owner") ∧
       (ctx.sender ≠ s.packageOwner name → ∀ s', cancelTransfer ctx s name ≠ .ok s') ∧
       (s.packageExists name ≠ 0 → ctx.sender = s.packageOwner name →
         ∃ s', cancelTransfer ctx s name = .ok s' ∧
           s'.packageOwner name = s.packageOwner name ∧
           s'.pkgPendingOwner name = 0 ∧ s'.pkgPendingTimestamp name = 0))) ∧
    (s.pkgPendingOwner name = 0 → ∀ s', cancelTransfer ctx s name ≠ .ok s') ∧
    (s.scopePendingOwner name = B →
      ((ctx.sender = B →
         ∃ s', acceptScopeTransfer ctx s name = .ok s' ∧
           s'.scopeOwner name = B ∧ s'.scopePendingOwner name = 0 ∧
           s'.scopePendingTimestamp name = 0) ∧
       (ctx.sender ≠ B → acceptScopeTransfer ctx s name = .error "Not pending owner") ∧
       (ctx.sender ≠ s.scopeOwner name → ∀ s', cancelScopeTransfer ctx s name ≠ .ok s') ∧
       (s.scopeExists name ≠ 0 → ctx.sender = s.scopeOwner name →
         ∃ s', cancelScopeTransfer ctx s name = .ok s' ∧
           s'.scopeOwner name = s.scopeOwner name ∧
           s'.scopePendingOwner name = 0 ∧ s'.scopePendingTimestamp name = 0))) ∧
    (s.scopePendingOwner name = 0 → ∀ s', cancelScopeTransfer ctx s name ≠ .ok s') := by
  refine ⟨?_, ?_, ?_, ?_⟩
  · intro hpend
    refine ⟨?_, ?_, ?_, ?_⟩
    · intro hsB
      unfold acceptTransfer
      rw [if_neg (by rw [hpend]; exact hB),
        if_neg (not_not_intro (by rw [hpend, hsB]))]
      exact ⟨_, rfl, by simp [hpend], by simp, by simp⟩
    · intro hsB
      unfold acceptTransfer
      rw [if_neg (by rw [hpend]; exact hB),
        if_pos (by rw [hpend]; exact hsB)]
    · intro hnown s' h
      unfold cancelTransfer at h
      repeat' split at h
      all_goals try (exact Except.noConfusion h)
      rename_i heq _
      exact absurd (requirePackageOwner_ok heq).2 hnown
    · intro hex hown
      unfold cancelTransfer
      rw [requirePackageOwner_ok_of hex hown]
      dsimp only
      rw [if_neg (by rw [hpend]; exact hB)]
      exact ⟨_, rfl, by simp, by simp, by simp⟩
  · intro hzero s' h
    unfold cancelTransfer at h
    repeat' split at h
    all_goals first
      | (exact Except.noConfusion h)
      | (exact absurd hzero (by assumption))
  · intro hpend
    refine ⟨?_, ?_, ?_, ?_⟩
    · intro hsB
      unfold acceptScopeTransfer
      rw [if_neg (by rw [hpend]; exact hB),
        if_neg (not_not_intro (by rw [hpend, hsB]))]
      exact ⟨_, rfl, by simp [hpend], by simp, by simp⟩
    · intro hsB
      unfold acceptScopeTransfer
      rw [if_neg (by rw [hpend]; exact hB),
        if_pos (by rw [hpend]; exact hsB)]
    · intro hnown s' h
      unfold cancelScopeTransfer at h
      repeat' split at h
      all_goals try (exact Except.noConfusion h)
      rename_i heq _
      exact absurd (requireScopeOwner_ok heq).2 hnown
    · intro hex hown
      unfold cancelScopeTransfer
      rw [requireScopeOwner_ok_of hex hown]
      dsimp only
      rw [if_neg (by rw [hpend]; exact hB)]
      exact ⟨_, rfl, by simp, by simp, by simp⟩
  · intro hzero s' h
    unfold cancelScopeTransfer at h
    repeat' split at h
    all_goals first
      | (exact Except.noConfusion h)
      | (exact absurd hzero (by assumption))

/-- C3 witness: identity 9, the pending owner at the concrete pending state,
accepts the package transfer; ownership moves to 9 and the pending fields
clear. -/
theorem claim_C3_two_step_transfer_witness :
    ∃ s', acceptTransfer ctxB statePendW "@myorg/cli" = .ok s' ∧
      s'.packageOwner "@myorg/cli" = 9 ∧ s'.pkgPendingOwner "@myorg/cli" = 0 ∧
      s'.pkgPendingTimestamp "@myorg/cli" = 0 :=
  (((claim_C3_two_step_transfer ctxB statePendW "@myorg/cli" 9 (by decide)).1
      (by decide)).1 (by decide))

theorem deployState_inv (tc p2tr : String) (ctx : TxContext) (horigin : ctx.origin ≠ 0) :
    StateInv (deployState tc p2tr ctx) := by
  constructor
  · intro n hn
    by_cases hres : n = RESERVED_SCOPE
    · subst hres
      simpa [deployState, upd] using horigin
    · have hz : (deployState tc p2tr ctx).scopeExists n = 0 := by
        simp [deployState, upd, hres]
      exact absurd hz hn
  · intro n hn
    by_cases hres : n = RESERVED_SCOPE
    · subst hres
      simp [deployState, upd] at hn
    · simp [deployState, upd, hres]
  · intro n _; rfl
  · intro n _; rfl
  · intro n _; rfl
  · intro k _; rfl

theorem stateInv_preserved (ctx : TxContext) (s : RegistryState) (op : Op)
    (hinv : StateInv s) (hsender : ctx.sender ≠ 0) : StateInv (applyOp ctx s op) := by
  unfold applyOp
  cases hexec : execOp ctx s op with
  | error e => exact hinv
  | ok s2 =>
    show StateInv s2
    cases op with
    | setTreasuryAddress addr =>
      simp only [execOp] at hexec
      unfold setTreasuryAddress at hexec
      repeat' split at hexec
      all_goals try (exact Except.noConfusion hexec)
      injection hexec with hexec
      subst hexec
      exact ⟨hinv.scopeOwnerNz, hinv.scopeOwnerZero, hinv.scopePendZero,
        hinv.pkgOwnerZero, hinv.pkgPendZero, hinv.verDepZero⟩
    | setScopePrice p =>
      simp only [execOp] at hexec
      unfold setScopePrice at hexec
      repeat' split at hexec
      all_goals try (exact Except.noConfusion hexec)
      injection hexec with hexec
      subst hexec
      exact ⟨hinv.scopeOwnerNz, hinv.scopeOwnerZero, hinv.scopePendZero,
        hinv.pkgOwnerZero, hinv.pkgPendZero, hinv.verDepZero⟩
    | setPackagePrice p =>
      simp only [execOp] at hexec
      unfold setPackagePrice at hexec
      repeat' split at hexec
      all_goals try (exact Except.noConfusion hexec)
      injection hexec with hexec
      subst hexec
      exact ⟨hinv.scopeOwnerNz, hinv.scopeOwnerZero, hinv.scopePendZero,
        hinv.pkgOwnerZero, hinv.pkgPendZero, hinv.verDepZero⟩
    | registerScope name =>
      simp only [execOp] at hexec
      unfold registerScope at hexec
      repeat' split at hexec
      all_goals try (exact Except.noConfusion hexec)
      injection hexec with hexec
      subst hexec
      refine ⟨?_, ?_, ?_, hinv.pkgOwnerZero, hinv.pkgPendZero, hinv.verDepZero⟩
      · intro n hn
        by_cases heq : n = name
        · subst heq; simpa [upd] using hsender
        · simp only [upd, if_neg heq] at hn ⊢
          exact hinv.scopeOwnerNz n hn
      · intro n hn
        by_cases heq : n = name
        · subst heq; simp [upd] at hn
        · simp only [upd, if_neg heq] at hn ⊢
          exact hinv.scopeOwnerZero n hn
      · intro n hn
        by_cases heq : n = name
        · subst heq; simp [upd] at hn
        · simp only [upd, if_neg heq] at hn
          exact hinv.scopePendZero n hn
    | initiateScopeTransfer name newOwner =>
      simp only [execOp] at hexec
      unfold initiateScopeTransfer at hexec
      cases hreq : requireScopeOwner ctx s name with
      | error e =>
        rw [hreq] at hexec
        exact Except.noConfusion hexec
      | ok u =>
        cases u
        rw [hreq] at hexec
        dsimp only at hexec
        by_cases hz : newOwner = 0
        · rw [if_pos hz] at hexec
          exact Except.noConfusion hexec
        · rw [if_neg hz] at hexec
          injection hexec with hexec
          subst hexec
          refine ⟨hinv.scopeOwnerNz, hinv.scopeOwnerZero, ?_,
            hinv.pkgOwnerZero, hinv.pkgPendZero, hinv.verDepZero⟩
          intro n hn
          by_cases heq : n = name
          · subst heq
            exact absurd hn (requireScopeOwner_ok hreq).1
          · simp only [upd, if_neg heq]
            exact hinv.scopePendZero n hn
    | acceptScopeTransfer name =>
      simp only [execOp] at hexec
      unfold acceptScopeTransfer at hexec
      by_cases hz : s.scopePendingOwner name = 0
      · rw [if_pos hz] at hexec
        exact Except.noConfusion hexec
      · rw [if_neg hz] at hexec
        by_cases hs : ctx.sender ≠ s.scopePendingOwner name
        · rw [if_pos hs] at hexec
          exact Except.noConfusion hexec
        · rw [if_neg hs] at hexec
          injection hexec with hexec
          subst hexec
          have hex : s.scopeExists name ≠ 0 := fun h0 => hz (hinv.scopePendZero name h0)
          refine ⟨?_, ?_, ?_, hinv.pkgOwnerZero, hinv.pkgPendZero, hinv.verDepZero⟩
          · intro n hn
            by_cases heq : n = name
            · subst heq; simpa [upd] using hz
            · simp only [upd, if_neg heq]
              exact hinv.scopeOwnerNz n hn
          · intro n hn
            by_cases heq : n = name
            · subst heq; exact absurd hn hex
            · simp only [upd, if_neg heq]
              exact hinv.scopeOwnerZero n hn
          · intro n hn
            by_cases heq : n = name
            · subst heq; simp [upd]
            · simp only [upd, if_neg heq]
              exact hinv.scopePendZero n hn
    | cancelScopeTransfer name =>
      simp only [execOp] at hexec
      unfold cancelScopeTransfer at hexec
      repeat' split at hexec
      all_goals try (exact Except.noConfusion hexec)
      injection hexec with hexec
      subst hexec
      refine ⟨hinv.scopeOwnerNz, hinv.scopeOwnerZero, ?_,
        hinv.pkgOwnerZero, hinv.pkgPendZero, hinv.verDepZero⟩
      intro n hn
      by_cases heq : n = name
      · subst heq; simp [upd]
      · simp only [upd, if_neg heq]
        exact hinv.scopePendZero n hn
    | registerPackage name =>
      simp only [execOp] at hexec
      unfold registerPackage at hexec
      repeat' split at hexec
      all_goals try (exact Except.noConfusion hexec)
      injection hexec with hexec
      subst hexec
      refine ⟨hinv.scopeOwnerNz, hinv.scopeOwnerZero, hinv.scopePendZero, ?_, ?_,
        hinv.verDepZero⟩
      · intro n hn
        by_cases heq : n = name
        · subst heq; simp [upd] at hn
        · simp only [upd, if_neg heq] at hn ⊢
          exact hinv.pkgOwnerZero n hn
      · intro n hn
        by_cases heq : n = name
        · subst heq; simp [upd] at hn
        · simp only [upd, if_neg heq] at hn
          exact hinv.pkgPendZero n hn
    | publishVersion a =>
      simp only [execOp] at hexec
      unfold publishVersion at hexec
      repeat' split at hexec
      all_goals try (exact Except.noConfusion hexec)
      injection hexec with hexec
      subst hexec
      refine ⟨hinv.scopeOwnerNz, hinv.scopeOwnerZero, hinv.scopePendZero, ?_, ?_, ?_⟩
      · intro n hn
        exact hinv.pkgOwnerZero n hn
      · intro n hn
        exact hinv.pkgPendZero n hn
      · intro k hk
        by_cases heq : k = versionKeyStr a.packageName a.version
        · subst heq; simp [upd] at hk
        · simp only [upd, if_neg heq] at hk ⊢
          exact hinv.verDepZero k hk
    | deprecateVersion pkg ver reason =>
      simp only [execOp] at hexec
      unfold deprecateVersion at hexec
      by_cases h1 : s.packageExists pkg = 0
      · rw [if_pos h1] at hexec
        exact Except.noConfusion hexec
      · rw [if_neg h1] at hexec
        by_cases h2 : s.versionExists (versionKeyStr pkg ver) = 0
        · rw [if_pos h2] at hexec
          exact Except.noConfusion hexec
        · rw [if_neg h2] at hexec
          cases hreq : requirePackageOwner ctx s pkg with
          | error e =>
            rw [hreq] at hexec
            exact Except.noConfusion hexec
          | ok u =>
            cases u
            rw [hreq] at hexec
            dsimp only at hexec
            by_cases h3 : (! isWithinMutabilityWindow ctx
                (s.versionTimestamp (versionKeyStr pkg ver))) = true
            · rw [if_pos h3] at hexec
              exact Except.noConfusion hexec
            · rw [if_neg h3] at hexec
              by_cases h4 : s.versionDeprecated (versionKeyStr pkg ver) ≠ 0
              · rw [if_pos h4] at hexec
                exact Except.noConfusion hexec
              · rw [if_neg h4] at hexec
                injection hexec with hexec
                subst hexec
                refine ⟨hinv.scopeOwnerNz, hinv.scopeOwnerZero, hinv.scopePendZero,
                  hinv.pkgOwnerZero, hinv.pkgPendZero, ?_⟩
                intro k hk
                by_cases hkey : k = versionKeyStr pkg ver
                · subst hkey; exact absurd hk h2
                · simp only [upd, if_neg hkey]
                  exact hinv.verDepZero k hk
    | undeprecateVersion pkg ver =>
      simp only [execOp] at hexec
      unfold undeprecateVersion at hexec
      repeat' split at hexec
      all_goals try (exact Except.noConfusion hexec)
      injection hexec with hexec
      subst hexec
      refine ⟨hinv.scopeOwnerNz, hinv.scopeOwnerZero, hinv.scopePendZero,
        hinv.pkgOwnerZero, hinv.pkgPendZero, ?_⟩
      intro k hk
      by_cases hkey : k = versionKeyStr pkg ver
      · subst hkey; simp [upd]
      · simp only [upd, if_neg hkey]
        exact hinv.verDepZero k hk
    | initiateTransfer pkg newOwner =>
      simp only [execOp] at hexec
      unfold initiateTransfer at hexec
      cases hreq : requirePackageOwner ctx s pkg with
      | error e =>
        rw [hreq] at hexec
        exact Except.noConfusion hexec
      | ok u =>
        cases u
        rw [hreq] at hexec
        dsimp only at hexec
        by_cases hz : newOwner = 0
        · rw [if_pos hz] at hexec
          exact Except.noConfusion hexec
        · rw [if_neg hz] at hexec
          injection hexec with hexec
          subst hexec
          refine ⟨hinv.scopeOwnerNz, hinv.scopeOwnerZero, hinv.scopePendZero,
            hinv.pkgOwnerZero, ?_, hinv.verDepZero⟩
          intro n hn
          by_cases heq : n = pkg
          · subst heq
            exact absurd hn (requirePackageOwner_ok hreq).1
          · simp only [upd, if_neg heq]
            exact hinv.pkgPendZero n hn
    | acceptTransfer pkg =>
      simp only [execOp] at hexec
      unfold acceptTransfer at hexec
      by_cases hz : s.pkgPendingOwner pkg = 0
      · rw [if_pos hz] at hexec
        exact Except.noConfusion hexec
      · rw [if_neg hz] at hexec
        by_cases hs : ctx.sender ≠ s.pkgPendingOwner pkg
        · rw [if_pos hs] at hexec
          exact Except.noConfusion hexec
        · rw [if_neg hs] at hexec
          injection hexec with hexec
          subst hexec
          have hex : s.packageExists pkg ≠ 0 := fun h0 => hz (hinv.pkgPendZero pkg h0)
          refine ⟨hinv.scopeOwnerNz, hinv.scopeOwnerZero, hinv.scopePendZero, ?_, ?_,
            hinv.verDepZero⟩
          · intro n hn
            by_cases heq : n = pkg
            · subst heq; exact absurd hn hex
            · simp only [upd, if_neg heq]
              exact hinv.pkgOwnerZero n hn
          · intro n hn
            by_cases heq : n = pkg
            · subst heq; simp [upd]
            · simp only [upd, if_neg heq]
              exact hinv.pkgPendZero n hn
    | cancelTransfer pkg =>
      simp only [execOp] at hexec
      unfold cancelTransfer at hexec
      repeat' split at hexec
      all_goals try (exact Except.noConfusion hexec)
      injection hexec with hexec
      subst hexec
      refine ⟨hinv.scopeOwnerNz, hinv.scopeOwnerZero, hinv.scopePendZero,
        hinv.pkgOwnerZero, ?_, hinv.verDepZero⟩
      intro n hn
      by_cases heq : n = pkg
      · subst heq; simp [upd]
      · simp only [upd, if_neg heq]
        exact hinv.pkgPendZero n hn

theorem reachable_inv {s : RegistryState} (h : Reachable s) : StateInv s := by
  induction h with
  | deploy tc p2tr ctx horigin => exact deployState_inv tc p2tr ctx horigin
  | step s ctx op hs hsender ih => exact stateInv_preserved ctx s op ih hsender

/-- C9: in every state reachable from deployment (with non-zero transaction
senders and a non-zero deploying origin), every scope either does not exist or
has a non-zero owner identity. -/
theorem claim_C9_scope_owner_invariant (s : RegistryState) (h : Reachable s) :
    ∀ n, s.scopeExists n = 0 ∨ s.scopeOwner n ≠ 0 := by
  intro n
  by_cases he : s.scopeExists n = 0
  · exact Or.inl he
  · exact Or.inr ((reachable_inv h).scopeOwnerNz n he)

/-- C9 witness: the invariant holds at the freshly deployed state, in
particular at the reserved scope. -/
theorem claim_C9_scope_owner_invariant_witness :
    (deployState "" "treas" ctxW).scopeExists "opnet" = 0 ∨
    (deployState "" "treas" ctxW).scopeOwner "opnet" ≠ 0 :=
  claim_C9_scope_owner_invariant (deployState "" "treas" ctxW)
    (Reachable.deploy "" "treas" ctxW (by decide)) "opnet"

/-- C10: on every reachable state, the point-lookup views never abort on
non-existent entities: `isDeprecated` and `isImmutable` return `false` for a
non-existent version, and `getScopeOwner` / `getOwner` return the zero address
for a non-existent scope / package. -/
theorem claim_C10_views_on_missing (ctx : TxContext) (s : RegistryState) (h : Reachable s)
    (packageName version scopeName pkgName : String) :
    (s.versionExists (versionKeyStr packageName version) = 0 →
      isDeprecated s packageName version = false) ∧
    (s.versionExists (versionKeyStr packageName version) = 0 →
      isImmutable ctx s packageName version = false) ∧
    (s.scopeExists scopeName = 0 → getScopeOwner s scopeName = 0) ∧
    (s.packageExists pkgName = 0 → getOwner s pkgName = 0) := by
  refine ⟨?_, ?_, ?_, ?_⟩
  · intro hz
    have hd := (reachable_inv h).verDepZero _ hz
    simp [isDeprecated, hd]
  · intro hz
    unfold isImmutable
    rw [if_pos hz]
  · intro hz
    exact (reachable_inv h).scopeOwnerZero _ hz
  · intro hz
    exact (reachable_inv h).pkgOwnerZero _ hz

/-- C10 witness: at the freshly deployed state, the views return `false` and
the zero address on entities that do not exist. -/
theorem claim_C10_views_on_missing_witness :
    ((deployState "" "treas" ctxW).versionExists (versionKeyStr "nopkg" "1.0.0") = 0 →
      isDeprecated (deployState "" "treas" ctxW) "nopkg" "1.0.0" = false) ∧
    ((deployState "" "treas" ctxW).versionExists (versionKeyStr "nopkg" "1.0.0") = 0 →
      isImmutable ctxW (deployState "" "treas" ctxW) "nopkg" "1.0.0" = false) ∧
    ((deployState "" "treas" ctxW).scopeExists "noscope" = 0 →
      getScopeOwner (deployState "" "treas" ctxW) "noscope" = 0) ∧
    ((deployState "" "treas" ctxW).packageExists "nopkg" = 0 →
      getOwner (deployState "" "treas" ctxW) "nopkg" = 0) :=
  claim_C10_views_on_missing ctxW (deployState "" "treas" ctxW)
    (Reachable.deploy "" "treas" ctxW (by decide)) "nopkg" "1.0.0" "noscope" "nopkg"

end PackageRegistry
